import Mathlib

/-!
# SpartanGoldPrime: prime-chain proof-of-work engine, shallow embedding

A shallow embedding of the prime-chain engine of the SpartanGoldPrime
repository, together with theorems settling the specification's claims.

Arbitrary-precision integers (jsbn `BigInteger`) are modelled as `Nat`:
every value flowing through the engine is non-negative (header digests,
multipliers, chain members, lengths, targets).  Subtraction is `Nat`
truncated subtraction; in every reachable use the minuend dominates.
Chain-type tags are modelled as `String`, exactly as in the source, so
that the "unrecognized chain type" branches are faithfully represented.
A JavaScript `throw` / `process.exit` is modelled by an `Option` result
being `none`.

The functions are translated from `prime.js`, `primeBlock.js`,
`primeMiner.js` and `buildPrimeChains.js`; source names are kept.
-/

namespace SGP

/-! ## Chain-type tags and constants (`primeBlockchain.js`) -/

/-- `CUNNINGHAM_CHAIN_1` tag from `primeBlockchain.js`. -/
def CUNNINGHAM_CHAIN_1 : String := "CUNNINGHAM_CHAIN_1"

/-- `CUNNINGHAM_CHAIN_2` tag from `primeBlockchain.js`. -/
def CUNNINGHAM_CHAIN_2 : String := "CUNNINGHAM_CHAIN_2"

/-- `BITWIN_CHAIN` tag from `primeBlockchain.js`. -/
def BITWIN_CHAIN : String := "BITWIN_CHAIN"

/-- `BLOCK_HEADER_HASH_MIN = 1 << 255` from `primeBlockchain.js`. -/
def BLOCK_HEADER_HASH_MIN : Nat := 2 ^ 255

/-- `7# = 210`, the base primorial multiplier from `prime.js`. -/
def BI_BASE_PRIMORIAL : Nat := 210

/-! ## Modular exponentiation

jsbn's `modPow` computes `b ^ e mod m`.  We embed it as a fuel-driven
square-and-multiply so that a concrete 256-bit instance reduces inside
the kernel; `powMod_eq` below proves it equal to `b ^ e % m`. -/

/-- Square-and-multiply helper; `fuel` only has to dominate the recursion
depth (`e` halves at every step, so `fuel = e` is always enough). -/
def powModAux : Nat → Nat → Nat → Nat → Nat
  | 0, _, _, m => 1 % m
  | fuel + 1, b, e, m =>
    if e = 0 then 1 % m
    else
      let h := powModAux fuel (b * b % m) (e / 2) m
      if e % 2 = 1 then h * b % m else h

/-- `b ^ e mod m`, the model of jsbn `BigInteger.modPow`. -/
def powMod (b e m : Nat) : Nat := powModAux e b e m

/-! ## `Prime.fermatPrimalityTest` (`prime.js` lines 34–46) -/

/-- `Prime.fermatPrimalityTest`: true iff `n = 2` or `2^(n-1) mod n = 1`. -/
def fermatPrimalityTest (n : Nat) : Bool :=
  if n == 2 then true
  else if powMod 2 (n - 1) n == 1 then true
  else false

/-! ## jsbn `isProbablePrime`

The second half of the primality pair is jsbn `BigInteger.isProbablePrime`,
an external library dependency whose source is not part of the repository. -/

/-- Trial-division helper: no divisor `d, d+1, …` with `d * d ≤ n` divides
`n`; `fuel` bounds the walk (`fuel = n` always suffices). -/
def noSmallFactor (n : Nat) : Nat → Nat → Bool
  | _, 0 => true
  | d, fuel + 1 =>
    if n < d * d then true
    else if n % d == 0 then false
    else noSmallFactor n (d + 1) fuel

/-- Modelled from the spec: §4.1's "stronger probable-prime test"
(jsbn `BigInteger.isProbablePrime`, an external dependency missing from
the repository sources) is idealized as an exact deterministic primality
test by trial division, the behaviour the spec assigns it at the stated
confidence level. -/
def isProbablePrime (n : Nat) : Bool :=
  2 ≤ n && noSmallFactor n 2 n

/-! ## `Prime.eulerLagrangePrimalityTest` (`prime.js` lines 60–112) -/

/-- `Prime.eulerLagrangePrimalityTest`: Lifchitz's generalized
Euler–Lagrange criterion for extending a Cunningham chain. -/
def eulerLagrangePrimalityTest (p : Nat) (chainType : String) : Bool :=
  let pMod4 := p % 4
  if 0 < p ∧ p < 4 then true
  else if p == 4 then
    if chainType == CUNNINGHAM_CHAIN_2 then true else false
  else if chainType == CUNNINGHAM_CHAIN_1 then
    if pMod4 == 1 then
      (2 ^ p + 1) % (2 * p + 1) == 0
    else if pMod4 == 3 then
      (2 ^ p - 1) % (2 * p + 1) == 0
    else false
  else if chainType == CUNNINGHAM_CHAIN_2 then
    if pMod4 == 1 then
      (2 ^ (p - 1) - 1) % (2 * p - 1) == 0
    else if pMod4 == 3 then
      (2 ^ (p - 1) + 1) % (2 * p - 1) == 0
    else false
  else false

/-! ## `Prime.findCunninghamChain` (`prime.js` lines 125–164)

The `while` loop runs at most `target - chainLength` times: every
non-breaking iteration increments `chainLength` and returns as soon as
`chainLength >= target`.  We thread that quantity as structural fuel;
`none` models the `throw` on an invalid chain type inside the loop. -/

/-- The chain-extension `while` loop of `Prime.findCunninghamChain`. -/
def findChainLoop : Nat → Nat → String → Nat → Nat → Option Nat
  | 0, _, _, _, chainLength => some chainLength
  | fuel + 1, n, chainType, target, chainLength =>
    if eulerLagrangePrimalityTest n chainType then
      if chainType == CUNNINGHAM_CHAIN_1 then
        let n2 := 2 * n + 1
        if !fermatPrimalityTest n2 || !isProbablePrime n2 then some chainLength
        else if target ≤ chainLength + 1 then some (chainLength + 1)
        else findChainLoop fuel n2 chainType target (chainLength + 1)
      else if chainType == CUNNINGHAM_CHAIN_2 then
        let n2 := 2 * n - 1
        if !fermatPrimalityTest n2 || !isProbablePrime n2 then some chainLength
        else if target ≤ chainLength + 1 then some (chainLength + 1)
        else findChainLoop fuel n2 chainType target (chainLength + 1)
      else none
    else some chainLength

/-- `Prime.findCunninghamChain`: length of the probable prime chain of the
given type starting at `n`, capped by `target`; `none` is the `throw` on an
unrecognized chain type reached inside the extension loop. -/
def findCunninghamChain (n : Nat) (chainType : String) (target : Nat) : Option Nat :=
  if !fermatPrimalityTest n || !isProbablePrime n then some 0
  else if target ≤ 1 then some 1
  else findChainLoop (target - 1) n chainType target 1

/-! ## `Prime.findPrimeChain` (`prime.js` lines 179–201) -/

/-- `Prime.findPrimeChain`: run both chain directions from `origin`,
combine into a bi-twin length, and select the best chain. -/
def findPrimeChain (origin : Nat) (target : Nat) : Option (Nat × String) :=
  match findCunninghamChain (origin - 1) CUNNINGHAM_CHAIN_1 target,
        findCunninghamChain (origin + 1) CUNNINGHAM_CHAIN_2 target with
  | some firstChainLength, some secondChainLength =>
    let bitwinChainLength :=
      if secondChainLength < firstChainLength then 2 * secondChainLength + 1
      else 2 * firstChainLength
    if secondChainLength ≤ firstChainLength ∧ bitwinChainLength ≤ firstChainLength then
      some (firstChainLength, CUNNINGHAM_CHAIN_1)
    else if firstChainLength ≤ secondChainLength ∧ bitwinChainLength ≤ secondChainLength then
      some (secondChainLength, CUNNINGHAM_CHAIN_2)
    else
      some (bitwinChainLength, BITWIN_CHAIN)
  | _, _ => none

/-! ## `PrimeBlock.hasValidProof` (`primeBlock.js` lines 25–76)

`hashHeader()` is a SHA-256 digest computed by the external `spartan-gold`
library; the verifier only uses its integer value, so the digest is an
input here.  The proof fields `(primeChainLength, primeMultiplier,
primeChainType)` and the block `target` are the remaining inputs. -/

/-- `PrimeBlock.hasValidProof`, with the block header digest abstracted as
the `Nat` input `blockHeaderHash`; `none` would be a `throw` escaping from
`findCunninghamChain` (shown impossible for the recognized tags). -/
def hasValidProof (blockHeaderHash target primeChainLength primeMultiplier : Nat)
    (primeChainType : String) : Option Bool :=
  if blockHeaderHash < BLOCK_HEADER_HASH_MIN then some false
  else if primeChainLength < target then some false
  else if primeMultiplier < 2 then some false
  else
    let origin := blockHeaderHash * primeMultiplier
    if primeChainType == CUNNINGHAM_CHAIN_1 then
      (findCunninghamChain (origin - 1) CUNNINGHAM_CHAIN_1 target).map
        (fun testLength => !(testLength < target))
    else if primeChainType == CUNNINGHAM_CHAIN_2 then
      (findCunninghamChain (origin + 1) CUNNINGHAM_CHAIN_2 target).map
        (fun testLength => !(testLength < target))
    else if primeChainType == BITWIN_CHAIN then
      match findCunninghamChain (origin - 1) CUNNINGHAM_CHAIN_1 ((target + 1) / 2),
            findCunninghamChain (origin + 1) CUNNINGHAM_CHAIN_2 (target / 2) with
      | some firstLength, some secondLength => some (!(firstLength + secondLength < target))
      | _, _ => none
    else some false

/-! ## `PrimeMiner.findProof` (`primeMiner.js` lines 193–227)

One round of the multiplier search: the candidate multiplier is
`210 * m`; on success it becomes the block's `primeMultiplier`, otherwise
the block's `primeMultiplier` is incremented by one.  The constructor of
`PrimeBlock` starts `primeMultiplier` at `2`. -/

/-- Initial `primeMultiplier` set by the `PrimeBlock` constructor. -/
def primeMultiplierInit : Nat := 2

/-- One round of `PrimeMiner.findProof`'s multiplier loop acting on the
block's `primeMultiplier` field `m` (the `none` arm is unreachable:
`findPrimeChain` never throws). -/
def minerRound (blockHeaderHash target m : Nat) : Nat :=
  let multiplier := BI_BASE_PRIMORIAL * m
  match findPrimeChain (blockHeaderHash * multiplier) target with
  | some (chainLength, _) => if target ≤ chainLength then multiplier else m + 1
  | none => m + 1

/-- The block's `primeMultiplier` after `k` rounds of the multiplier
search started from a fresh block. -/
def minerMultiplierIter (blockHeaderHash target : Nat) : Nat → Nat
  | 0 => primeMultiplierInit
  | k + 1 => minerRound blockHeaderHash target (minerMultiplierIter blockHeaderHash target k)

/-! ## `buildChain` (`buildPrimeChains.js` lines 20–64)

The expansion of a finalized `{origin, chainLength, chainType}` record
into the list of chain members (decimal strings in the source, `Nat`s
here); `none` models `process.exit` on corrupt input. -/

/-- The first-kind push loop of `buildChain`: `k` members starting at `n`,
stepping `n ↦ 2n+1`. -/
def cunningham1List (n : Nat) : Nat → List Nat
  | 0 => []
  | k + 1 => n :: cunningham1List (2 * n + 1) k

/-- The second-kind push loop of `buildChain`: `k` members starting at
`n`, stepping `n ↦ 2n-1`. -/
def cunningham2List (n : Nat) : Nat → List Nat
  | 0 => []
  | k + 1 => n :: cunningham2List (2 * n - 1) k

/-- The bi-twin `for (i = 2; i < chainLength; i += 2)` loop of
`buildChain`, with loop counter `i` and structural fuel. -/
def bitwinLoop (first second chainLength i : Nat) : Nat → List Nat
  | 0 => []
  | fuel + 1 =>
    if i < chainLength then
      let f2 := 2 * first + 1
      let s2 := 2 * second - 1
      (f2 :: s2 :: (if i + 1 == chainLength then [2 * f2 + 1] else []))
        ++ bitwinLoop f2 s2 chainLength (i + 2) fuel
    else []

/-- `buildChain` from `buildPrimeChains.js`: expand a proof record into
the explicit chain member list; `none` is the `process.exit` abort on a
chain length below 1 or an unrecognized chain type. -/
def buildChain (origin chainLength : Nat) (chainType : String) : Option (List Nat) :=
  if chainLength < 1 then none
  else if chainType == CUNNINGHAM_CHAIN_1 then
    some (cunningham1List (origin - 1) chainLength)
  else if chainType == CUNNINGHAM_CHAIN_2 then
    some (cunningham2List (origin + 1) chainLength)
  else if chainType == BITWIN_CHAIN then
    some ((origin - 1) :: (origin + 1) ::
      bitwinLoop (origin - 1) (origin + 1) chainLength 2 chainLength)
  else none

/-! ## Reference definition of the chain searcher (spec §4.3)

For claim C2 the spec's §4.3 algorithm is written out on its own, over
the spec's two-valued chain kind (§3's ChainType restricted to the two
Cunningham kinds, the only ones §4.3 admits), and proved equal to the
source's `findCunninghamChain`. -/

/-- The spec's chain kinds of §4.2/§4.3: first or second Cunningham kind. -/
inductive ChainKind : Type
  | first : ChainKind
  | second : ChainKind

/-- Spec §4.3 step 3a: the next candidate, `2n+1` for the first kind and
`2n-1` for the second kind. -/
def chainStep : ChainKind → Nat → Nat
  | .first, n => 2 * n + 1
  | .second, n => 2 * n - 1

/-- The string tag the source uses for a spec chain kind. -/
def kindTag : ChainKind → String
  | .first => CUNNINGHAM_CHAIN_1
  | .second => CUNNINGHAM_CHAIN_2

/-- Spec §4.1: a candidate is accepted as prime only when both the Fermat
filter and the stronger probabilistic test pass. -/
def primalityPair (n : Nat) : Bool :=
  fermatPrimalityTest n && isProbablePrime n

/-- Spec §4.3 step 3: loop while the criterion holds; step, tentatively
increment, re-test and roll back on failure, return early at the target. -/
def findChainSpecLoop : Nat → Nat → ChainKind → Nat → Nat → Nat
  | 0, _, _, _, chainLength => chainLength
  | fuel + 1, n, kind, target, chainLength =>
    if eulerLagrangePrimalityTest n (kindTag kind) then
      let n2 := chainStep kind n
      if primalityPair n2 then
        if target ≤ chainLength + 1 then chainLength + 1
        else findChainSpecLoop fuel n2 kind target (chainLength + 1)
      else chainLength
    else chainLength

/-- Spec §4.3 `findChain(n, chainType, target)`: 0 on a failed primality
pair, else start at length 1, return early at the target, and extend
while the criterion and the primality pair allow. -/
def findChainSpec (n : Nat) (kind : ChainKind) (target : Nat) : Nat :=
  if !primalityPair n then 0
  else if target ≤ 1 then 1
  else findChainSpecLoop (target - 1) n kind target 1

/-! ## Helper lemmas -/

/-- De Morgan on the primality pair, matching the source's
`!fermat(n) || !isProbablePrime(n)` against the spec's single pair. -/
theorem not_or_not_eq_not_and (a b : Bool) : (!a || !b) = !(a && b) := by
  cases a <;> cases b <;> rfl

/-- `powModAux` computes `b ^ e % m` whenever the fuel dominates `e`. -/
theorem powModAux_eq :
    ∀ (fuel b e m : Nat), e ≤ fuel → powModAux fuel b e m = b ^ e % m := by
  intro fuel
  induction fuel with
  | zero =>
    intro b e m he
    have h0 : e = 0 := Nat.le_zero.mp he
    subst h0
    simp [powModAux]
  | succ fuel ih =>
    intro b e m he
    rcases Nat.eq_zero_or_pos e with h0 | h0
    · subst h0
      simp [powModAux]
    · have hne : ¬e = 0 := by omega
      have hrec := ih (b * b % m) (e / 2) m (by omega)
      have hpow : (b * b % m) ^ (e / 2) % m = b ^ (2 * (e / 2)) % m := by
        rw [← Nat.pow_mod, ← pow_two, ← pow_mul]
      simp only [powModAux, hne, if_false]
      rw [hrec, hpow]
      by_cases hpar : e % 2 = 1
      · rw [if_pos hpar, Nat.mod_mul_mod, ← pow_succ]
        have hexp : 2 * (e / 2) + 1 = e := by omega
        rw [hexp]
      · rw [if_neg hpar]
        have hexp : 2 * (e / 2) = e := by omega
        rw [hexp]

/-- jsbn `modPow`, as embedded, is exactly `b ^ e % m`. -/
theorem powMod_eq (b e m : Nat) : powMod b e m = b ^ e % m :=
  powModAux_eq e b e m le_rfl

/-- The source chain-extension loop, run with a recognized Cunningham
tag, never throws and agrees with the spec's §4.3 loop. -/
theorem findChainLoop_eq_spec :
    ∀ (fuel n : Nat) (kind : ChainKind) (target chainLength : Nat),
      findChainLoop fuel n (kindTag kind) target chainLength =
        some (findChainSpecLoop fuel n kind target chainLength) := by
  intro fuel
  induction fuel with
  | zero => intro n kind t cl; rfl
  | succ fuel ih =>
    intro n kind t cl
    have h21 : (CUNNINGHAM_CHAIN_2 == CUNNINGHAM_CHAIN_1) = false := by decide
    cases kind with
    | first =>
      by_cases hel : eulerLagrangePrimalityTest n CUNNINGHAM_CHAIN_1 = true
      · by_cases hpp : (fermatPrimalityTest (2 * n + 1) && isProbablePrime (2 * n + 1)) = true
        · by_cases htgt : t ≤ cl + 1
          · simp [findChainLoop, findChainSpecLoop, kindTag, chainStep, primalityPair,
              not_or_not_eq_not_and, hel, hpp, htgt]
          · simp only [findChainLoop, findChainSpecLoop, kindTag, chainStep, primalityPair,
              not_or_not_eq_not_and, hel, hpp, htgt, beq_self_eq_true, if_true, if_false,
              Bool.not_true, Bool.false_eq_true, ite_true, ite_false]
            exact ih (2 * n + 1) .first t (cl + 1)
        · have hpp2 : (fermatPrimalityTest (2 * n + 1) && isProbablePrime (2 * n + 1)) = false :=
            by simpa using hpp
          simp [findChainLoop, findChainSpecLoop, kindTag, chainStep, primalityPair,
            not_or_not_eq_not_and, hel, hpp2]
      · have hel2 : eulerLagrangePrimalityTest n CUNNINGHAM_CHAIN_1 = false := by
          simpa using hel
        simp [findChainLoop, findChainSpecLoop, kindTag, hel2]
    | second =>
      by_cases hel : eulerLagrangePrimalityTest n CUNNINGHAM_CHAIN_2 = true
      · by_cases hpp : (fermatPrimalityTest (2 * n - 1) && isProbablePrime (2 * n - 1)) = true
        · by_cases htgt : t ≤ cl + 1
          · simp [findChainLoop, findChainSpecLoop, kindTag, chainStep, primalityPair,
              not_or_not_eq_not_and, hel, hpp, htgt, h21]
          · simp only [findChainLoop, findChainSpecLoop, kindTag, chainStep, primalityPair,
              not_or_not_eq_not_and, hel, hpp, htgt, h21, beq_self_eq_true, if_true, if_false,
              Bool.not_true, Bool.false_eq_true, ite_true, ite_false]
            exact ih (2 * n - 1) .second t (cl + 1)
        · have hpp2 : (fermatPrimalityTest (2 * n - 1) && isProbablePrime (2 * n - 1)) = false :=
            by simpa using hpp
          simp [findChainLoop, findChainSpecLoop, kindTag, chainStep, primalityPair,
            not_or_not_eq_not_and, hel, hpp2, h21]
      · have hel2 : eulerLagrangePrimalityTest n CUNNINGHAM_CHAIN_2 = false := by
          simpa using hel
        simp [findChainLoop, findChainSpecLoop, kindTag, hel2]

/-- `Prime.findCunninghamChain` on a recognized Cunningham tag never
throws and returns exactly the spec's §4.3 value. -/
theorem findCunninghamChain_eq_spec (n : Nat) (kind : ChainKind) (target : Nat) :
    findCunninghamChain n (kindTag kind) target = some (findChainSpec n kind target) := by
  simp only [findCunninghamChain, findChainSpec, primalityPair, not_or_not_eq_not_and]
  by_cases hp : (fermatPrimalityTest n && isProbablePrime n) = true
  · simp only [hp, Bool.not_true, Bool.false_eq_true, if_false]
    by_cases ht : target ≤ 1
    · rw [if_pos ht, if_pos ht]
    · rw [if_neg ht, if_neg ht]
      exact findChainLoop_eq_spec (target - 1) n kind target 1
  · have hp2 : (fermatPrimalityTest n && isProbablePrime n) = false := by simpa using hp
    simp [hp2]

/-- The spec loop never reports past the target once entered below it. -/
theorem findChainSpecLoop_le :
    ∀ (fuel n : Nat) (kind : ChainKind) (target chainLength : Nat),
      chainLength < target →
      findChainSpecLoop fuel n kind target chainLength ≤ target := by
  intro fuel
  induction fuel with
  | zero => intro n kind t cl h; simpa [findChainSpecLoop] using h.le
  | succ fuel ih =>
    intro n kind t cl h
    simp only [findChainSpecLoop]
    split
    · split
      · split
        · omega
        · exact ih _ _ _ _ (by omega)
      · omega
    · omega

/-- The spec searcher caps its report at the requested target. -/
theorem findChainSpec_le (n : Nat) (kind : ChainKind) (target : Nat) (ht : 1 ≤ target) :
    findChainSpec n kind target ≤ target := by
  simp only [findChainSpec]
  split
  · omega
  · split
    · omega
    · exact findChainSpecLoop_le _ _ _ _ _ (by omega)

/-- `Prime.findPrimeChain` in closed form: both directions are searched,
the bi-twin length combined, and the best chain selected. -/
theorem findPrimeChain_eq (origin target : Nat) :
    findPrimeChain origin target =
      (let firstChainLength := findChainSpec (origin - 1) .first target
       let secondChainLength := findChainSpec (origin + 1) .second target
       let bitwinChainLength :=
         if secondChainLength < firstChainLength then 2 * secondChainLength + 1
         else 2 * firstChainLength
       if secondChainLength ≤ firstChainLength ∧ bitwinChainLength ≤ firstChainLength then
         some (firstChainLength, CUNNINGHAM_CHAIN_1)
       else if firstChainLength ≤ secondChainLength ∧ bitwinChainLength ≤ secondChainLength then
         some (secondChainLength, CUNNINGHAM_CHAIN_2)
       else
         some (bitwinChainLength, BITWIN_CHAIN)) := by
  have h1 := findCunninghamChain_eq_spec (origin - 1) .first target
  have h2 := findCunninghamChain_eq_spec (origin + 1) .second target
  simp only [kindTag] at h1 h2
  simp only [findPrimeChain, h1, h2]

/-- A failed primality pair reports chain length 0 at once. -/
theorem findChainSpec_of_not_prime {n : Nat} (kind : ChainKind) (target : Nat)
    (h : primalityPair n = false) : findChainSpec n kind target = 0 := by
  simp [findChainSpec, h]

/-- Once the Euler–Lagrange criterion fails, the spec loop stops with its
current chain length, whatever fuel remains. -/
theorem findChainSpecLoop_stop {n : Nat} {kind : ChainKind}
    (h : eulerLagrangePrimalityTest n (kindTag kind) = false) :
    ∀ (fuel target chainLength : Nat),
      findChainSpecLoop fuel n kind target chainLength = chainLength := by
  intro fuel target chainLength
  cases fuel <;> simp [findChainSpecLoop, h]

/-- `buildChain` aborts exactly on a chain length below 1 or an
unrecognized chain-type tag. -/
theorem buildChain_none_iff (origin chainLength : Nat) (chainType : String) :
    buildChain origin chainLength chainType = none ↔
      chainLength = 0 ∨
        (chainType ≠ CUNNINGHAM_CHAIN_1 ∧ chainType ≠ CUNNINGHAM_CHAIN_2 ∧
          chainType ≠ BITWIN_CHAIN) := by
  by_cases h0 : chainLength < 1
  · have hz : chainLength = 0 := by omega
    subst hz
    simp [buildChain]
  · have hz : ¬chainLength = 0 := by omega
    have ne21 : CUNNINGHAM_CHAIN_2 ≠ CUNNINGHAM_CHAIN_1 := by decide
    have neb1 : BITWIN_CHAIN ≠ CUNNINGHAM_CHAIN_1 := by decide
    have neb2 : BITWIN_CHAIN ≠ CUNNINGHAM_CHAIN_2 := by decide
    by_cases h1 : chainType = CUNNINGHAM_CHAIN_1
    · subst h1
      simp [buildChain, h0, hz]
    · by_cases h2 : chainType = CUNNINGHAM_CHAIN_2
      · subst h2
        simp [buildChain, h0, hz, beq_iff_eq, ne21]
      · by_cases h3 : chainType = BITWIN_CHAIN
        · subst h3
          simp [buildChain, h0, hz, beq_iff_eq, neb1, neb2]
        · simp [buildChain, h0, hz, beq_iff_eq, h1, h2, h3]

/-- One miner round either installs the primorial-scaled multiplier or
increments the block's multiplier by one. -/
theorem minerRound_cases (blockHeaderHash target m : Nat) :
    minerRound blockHeaderHash target m = BI_BASE_PRIMORIAL * m ∨
      minerRound blockHeaderHash target m = m + 1 := by
  unfold minerRound
  cases hfp : findPrimeChain (blockHeaderHash * (BI_BASE_PRIMORIAL * m)) target with
  | none => right; simp [hfp]
  | some p =>
    cases p with
    | mk chainLength chainType =>
      by_cases h : target ≤ chainLength
      · left; simp [hfp, h]
      · right; simp [hfp, h]

/-- One miner round keeps the multiplier at 2 or above. -/
theorem minerRound_ge (blockHeaderHash target m : Nat) (hm : 2 ≤ m) :
    2 ≤ minerRound blockHeaderHash target m := by
  rcases minerRound_cases blockHeaderHash target m with h | h <;> rw [h]
  · simp only [BI_BASE_PRIMORIAL]; omega
  · omega

/-- One successful extension step of the spec loop: criterion holds, the
next member passes the primality pair, and the target is not yet met. -/
theorem findChainSpecLoop_step {n : Nat} {kind : ChainKind} {target chainLength : Nat}
    (hel : eulerLagrangePrimalityTest n (kindTag kind) = true)
    (hpp : primalityPair (chainStep kind n) = true)
    (htgt : ¬target ≤ chainLength + 1) (fuel : Nat) :
    findChainSpecLoop (fuel + 1) n kind target chainLength =
      findChainSpecLoop fuel (chainStep kind n) kind target (chainLength + 1) := by
  simp only [findChainSpecLoop, hel, hpp, eq_self_iff_true, if_true]
  rw [if_neg htgt]

/-- Fixture: 16 fails the primality pair, so the first-kind search from
origin 17 reports 0 at every target. -/
theorem findChainSpec_16_first (target : Nat) :
    findChainSpec 16 ChainKind.first target = 0 :=
  findChainSpec_of_not_prime ChainKind.first target (by decide)

/-- Fixture: 18 fails the primality pair, so the second-kind search from
origin 17 reports 0 at every target. -/
theorem findChainSpec_18_second (target : Nat) :
    findChainSpec 18 ChainKind.second target = 0 :=
  findChainSpec_of_not_prime ChainKind.second target (by decide)

/-- Fixture: 17 is prime but the first-kind criterion fails at once, so
the first-kind search from origin 18 reports exactly 1 once the target
allows entering the loop. -/
theorem findChainSpec_17_first (target : Nat) (ht : 2 ≤ target) :
    findChainSpec 17 ChainKind.first target = 1 := by
  obtain ⟨k, rfl⟩ : ∃ k, target = k + 2 := ⟨target - 2, by omega⟩
  have hpp : primalityPair 17 = true := by decide
  have hel : eulerLagrangePrimalityTest 17 (kindTag ChainKind.first) = false := by decide
  simp only [findChainSpec, hpp, Bool.not_true, Bool.false_eq_true, if_false]
  rw [if_neg (by omega : ¬k + 2 ≤ 1)]
  exact findChainSpecLoop_stop hel (k + 2 - 1) (k + 2) 1

/-- Fixture: the second-kind chain 19 → 37 → 73 stops after three members
(the criterion fails at 73), so the search from origin 18 reports exactly
3 at every target of at least 3. -/
theorem findChainSpec_19_second (target : Nat) (ht : 3 ≤ target) :
    findChainSpec 19 ChainKind.second target = 3 := by
  obtain ⟨k, rfl⟩ : ∃ k, target = k + 3 := ⟨target - 3, by omega⟩
  by_cases hk : k = 0
  · subst hk; decide
  · obtain ⟨j, rfl⟩ : ∃ j, k = j + 1 := ⟨k - 1, by omega⟩
    have hpp19 : primalityPair 19 = true := by decide
    have hel19 : eulerLagrangePrimalityTest 19 (kindTag ChainKind.second) = true := by decide
    have hpp37 : primalityPair (chainStep ChainKind.second 19) = true := by decide
    have hel37 : eulerLagrangePrimalityTest (chainStep ChainKind.second 19)
        (kindTag ChainKind.second) = true := by decide
    have hpp73 : primalityPair (chainStep ChainKind.second (chainStep ChainKind.second 19)) =
        true := by decide
    have hel73 : eulerLagrangePrimalityTest
        (chainStep ChainKind.second (chainStep ChainKind.second 19))
        (kindTag ChainKind.second) = false := by decide
    have ha : j + 1 + 3 = j + 4 := by omega
    rw [ha]
    simp only [findChainSpec, hpp19, Bool.not_true, Bool.false_eq_true, if_false]
    rw [if_neg (by omega : ¬j + 4 ≤ 1)]
    rw [show j + 4 - 1 = j + 2 + 1 from by omega]
    rw [findChainSpecLoop_step hel19 hpp37 (by omega)]
    rw [show j + 2 = j + 1 + 1 from rfl]
    rw [findChainSpecLoop_step hel37 hpp73 (by omega)]
    rw [findChainSpecLoop_stop hel73]

/-! ## Claims -/

/-- C2: for every big integer `n`, both Cunningham chain types and every
target, `findCunninghamChain` equals the reference definition of spec
§4.3 (`findChainSpec`): 0 on a failed primality pair, start at length 1
with an early return at the target, extension guarded by the
Euler–Lagrange criterion with re-test, rollback and early return. -/
theorem findCunninghamChain_matches_spec (n target : Nat) :
    findCunninghamChain n CUNNINGHAM_CHAIN_1 target =
        some (findChainSpec n ChainKind.first target) ∧
      findCunninghamChain n CUNNINGHAM_CHAIN_2 target =
        some (findChainSpec n ChainKind.second target) :=
  ⟨findCunninghamChain_eq_spec n ChainKind.first target,
   findCunninghamChain_eq_spec n ChainKind.second target⟩

/-- C4: `findPrimeChain` computes both directed chain lengths, forms the
bi-twin length as `2·L2+1` when `L1 > L2` and `2·L1` otherwise (so it is
always `2·min(L1,L2)` plus 1 exactly when `L1 > L2`), and selects with
`≥` comparisons favouring First, then Second, then BiTwin. -/
theorem findPrimeChain_selector (origin target : Nat) :
    ∃ L1 L2,
      findCunninghamChain (origin - 1) CUNNINGHAM_CHAIN_1 target = some L1 ∧
      findCunninghamChain (origin + 1) CUNNINGHAM_CHAIN_2 target = some L2 ∧
      (if L2 < L1 then 2 * L2 + 1 else 2 * L1) =
        2 * min L1 L2 + (if L2 < L1 then 1 else 0) ∧
      findPrimeChain origin target =
        some
          (if L2 ≤ L1 ∧ (if L2 < L1 then 2 * L2 + 1 else 2 * L1) ≤ L1 then
            (L1, CUNNINGHAM_CHAIN_1)
          else if L1 ≤ L2 ∧ (if L2 < L1 then 2 * L2 + 1 else 2 * L1) ≤ L2 then
            (L2, CUNNINGHAM_CHAIN_2)
          else ((if L2 < L1 then 2 * L2 + 1 else 2 * L1), BITWIN_CHAIN)) := by
  refine ⟨findChainSpec (origin - 1) ChainKind.first target,
    findChainSpec (origin + 1) ChainKind.second target,
    findCunninghamChain_eq_spec (origin - 1) ChainKind.first target,
    findCunninghamChain_eq_spec (origin + 1) ChainKind.second target, ?_, ?_⟩
  · split_ifs <;> omega
  · simp only [findPrimeChain_eq]
    split_ifs <;> rfl

/-- C6: regression fixtures — from origin 18 the selector finds a chain
longer than 2 at every target from 3 up (the second-kind chain
19 → 37 → 73), while from origin 17 it reports chain length 0 at every
target (both 16 and 18 fail to start a qualifying chain). -/
theorem findPrimeChain_fixtures :
    (∀ target, 3 ≤ target →
      ∃ chainLength chainType,
        findPrimeChain 18 target = some (chainLength, chainType) ∧ 2 < chainLength) ∧
    (∀ target, findPrimeChain 17 target = some (0, CUNNINGHAM_CHAIN_1)) := by
  constructor
  · intro target ht
    have e1 : findChainSpec (18 - 1) ChainKind.first target = 1 :=
      findChainSpec_17_first target (by omega)
    have e2 : findChainSpec (18 + 1) ChainKind.second target = 3 :=
      findChainSpec_19_second target ht
    refine ⟨3, CUNNINGHAM_CHAIN_2, ?_, by omega⟩
    rw [findPrimeChain_eq]
    simp [e1, e2]
  · intro target
    have e1 : findChainSpec (17 - 1) ChainKind.first target = 0 :=
      findChainSpec_16_first target
    have e2 : findChainSpec (17 + 1) ChainKind.second target = 0 :=
      findChainSpec_18_second target
    rw [findPrimeChain_eq]
    simp [e1, e2]

/-- Counterexample to C6 as stated: at the small target 2 (the system's
base chain-length target) the early exit caps the reported chain at
exactly 2, which is not greater than 2. -/
theorem findPrimeChain_fixture_target2 :
    findPrimeChain 18 2 = some (2, CUNNINGHAM_CHAIN_2) ∧ ((2 : Nat) > 2) = False :=
  ⟨by decide, eq_false (by decide)⟩

/-- Witness for `findPrimeChain_fixtures` at the default target 3. -/
theorem findPrimeChain_fixtures_witness :
    (∃ chainLength chainType,
      findPrimeChain 18 3 = some (chainLength, chainType) ∧ 2 < chainLength) ∧
    findPrimeChain 17 3 = some (0, CUNNINGHAM_CHAIN_1) :=
  ⟨findPrimeChain_fixtures.1 3 (by decide), findPrimeChain_fixtures.2 3⟩

/-- C7: `fermatPrimalityTest n` is true exactly when `n = 2` or
`2^(n-1) mod n = 1`, and the spec's concrete values hold. -/
theorem fermatPrimalityTest_iff :
    (∀ n : Nat, fermatPrimalityTest n = true ↔ (n = 2 ∨ 2 ^ (n - 1) % n = 1)) ∧
    fermatPrimalityTest 2 = true ∧ fermatPrimalityTest 4 = false ∧
    fermatPrimalityTest 97 = true := by
  refine ⟨?_, by decide, by decide, by decide⟩
  intro n
  simp only [fermatPrimalityTest, powMod_eq]
  by_cases h2 : n = 2
  · subst h2; simp
  · have hb : (n == 2) = false := beq_eq_false_iff_ne.mpr h2
    by_cases hm : 2 ^ (n - 1) % n = 1 <;> simp [hb, hm, h2, beq_iff_eq]

/-- C8: error propagation — ordinary negative outcomes never raise:
`findCunninghamChain` with either valid Cunningham tag and
`findPrimeChain` always return a value, while `buildChain` aborts exactly
on a requested chain length below 1 or an unrecognized chain-type tag. -/
theorem error_policy :
    (∀ n target, (findCunninghamChain n CUNNINGHAM_CHAIN_1 target).isSome = true) ∧
    (∀ n target, (findCunninghamChain n CUNNINGHAM_CHAIN_2 target).isSome = true) ∧
    (∀ origin target, (findPrimeChain origin target).isSome = true) ∧
    (∀ origin chainLength chainType,
      buildChain origin chainLength chainType = none ↔
        chainLength = 0 ∨
          (chainType ≠ CUNNINGHAM_CHAIN_1 ∧ chainType ≠ CUNNINGHAM_CHAIN_2 ∧
            chainType ≠ BITWIN_CHAIN)) := by
  refine ⟨?_, ?_, ?_, buildChain_none_iff⟩
  · intro n target
    have e := findCunninghamChain_eq_spec n ChainKind.first target
    simp only [kindTag] at e
    rw [e]
    rfl
  · intro n target
    have e := findCunninghamChain_eq_spec n ChainKind.second target
    simp only [kindTag] at e
    rw [e]
    rfl
  · intro origin target
    simp only [findPrimeChain_eq]
    split_ifs <;> rfl

/-- C10: with a valid Cunningham tag and a target of at least 1,
`findCunninghamChain` returns a length between 0 and the target — the
early exits cap the report at exactly the requested target. -/
theorem findCunninghamChain_le_target (n : Nat) (chainType : String) (target : Nat)
    (ht : 1 ≤ target)
    (hct : chainType = CUNNINGHAM_CHAIN_1 ∨ chainType = CUNNINGHAM_CHAIN_2) :
    ∃ L, findCunninghamChain n chainType target = some L ∧ L ≤ target := by
  rcases hct with h | h <;> subst h
  · exact ⟨findChainSpec n ChainKind.first target,
      findCunninghamChain_eq_spec n ChainKind.first target,
      findChainSpec_le n ChainKind.first target ht⟩
  · exact ⟨findChainSpec n ChainKind.second target,
      findCunninghamChain_eq_spec n ChainKind.second target,
      findChainSpec_le n ChainKind.second target ht⟩

/-- Witness for `findCunninghamChain_le_target`: the chain at 2 with
target 5 is reported with length at most 5. -/
theorem findCunninghamChain_le_target_witness :
    ∃ L, findCunninghamChain 2 CUNNINGHAM_CHAIN_1 5 = some L ∧ L ≤ 5 :=
  findCunninghamChain_le_target 2 CUNNINGHAM_CHAIN_1 5 (by decide) (Or.inl rfl)

/-- C3: `eulerLagrangePrimalityTest` follows the §4.2 case analysis —
true for `0 < p < 4`; at `p = 4` true exactly for the second kind; for
`p ≥ 5` the stated congruences on `p mod 4 ∈ {1, 3}` decide it; and the
spec's concrete criterion values hold. -/
theorem eulerLagrange_cases (p : Nat) (hp : 0 < p) :
    (p < 4 → ∀ chainType, eulerLagrangePrimalityTest p chainType = true) ∧
    (eulerLagrangePrimalityTest 4 CUNNINGHAM_CHAIN_2 = true ∧
      eulerLagrangePrimalityTest 4 CUNNINGHAM_CHAIN_1 = false) ∧
    (5 ≤ p →
      (eulerLagrangePrimalityTest p CUNNINGHAM_CHAIN_1 = true ↔
        (p % 4 = 1 ∧ (2 ^ p + 1) % (2 * p + 1) = 0) ∨
          (p % 4 = 3 ∧ (2 ^ p - 1) % (2 * p + 1) = 0)) ∧
      (eulerLagrangePrimalityTest p CUNNINGHAM_CHAIN_2 = true ↔
        (p % 4 = 1 ∧ (2 ^ (p - 1) - 1) % (2 * p - 1) = 0) ∨
          (p % 4 = 3 ∧ (2 ^ (p - 1) + 1) % (2 * p - 1) = 0))) ∧
    (eulerLagrangePrimalityTest 1 CUNNINGHAM_CHAIN_1 = true ∧
      eulerLagrangePrimalityTest 2 CUNNINGHAM_CHAIN_1 = true ∧
      eulerLagrangePrimalityTest 3 CUNNINGHAM_CHAIN_1 = true) := by
  refine ⟨?_, by decide, ?_, by decide⟩
  · intro h4 chainType
    simp [eulerLagrangePrimalityTest, hp, h4]
  · intro h5
    have hc1 : ¬(0 < p ∧ p < 4) := by omega
    have hc2 : (p == 4) = false := beq_eq_false_iff_ne.mpr (by omega)
    have hne21 : (CUNNINGHAM_CHAIN_2 == CUNNINGHAM_CHAIN_1) = false := by decide
    have hmod : p % 4 = 0 ∨ p % 4 = 1 ∨ p % 4 = 2 ∨ p % 4 = 3 := by omega
    constructor
    · rcases hmod with hr | hr | hr | hr <;>
        simp [eulerLagrangePrimalityTest, hc1, hc2, hr, beq_iff_eq]
    · rcases hmod with hr | hr | hr | hr <;>
        simp [eulerLagrangePrimalityTest, hc1, hc2, hne21, hr, beq_iff_eq]

/-- Witness for `eulerLagrange_cases` at `p = 5`, first kind. -/
theorem eulerLagrange_cases_witness :
    eulerLagrangePrimalityTest 5 CUNNINGHAM_CHAIN_1 = true ↔
      (5 % 4 = 1 ∧ (2 ^ 5 + 1) % (2 * 5 + 1) = 0) ∨
        (5 % 4 = 3 ∧ (2 ^ 5 - 1) % (2 * 5 + 1) = 0) :=
  ((eulerLagrange_cases 5 (by decide)).2.2.1 (by decide)).1

/-- C5 (code bug): expanding the bi-twin record of chain length 3 at
origin 6 yields five members `[5, 7, 11, 13, 23]` instead of the three
primes the searcher confirmed (`5, 7, 11`) — the spec's "exactly
chainLength primes" and round-trip requirements fail for odd bi-twin
lengths. -/
theorem buildChain_bitwin_odd_bug :
    buildChain 6 3 BITWIN_CHAIN = some [5, 7, 11, 13, 23] ∧
      ([5, 7, 11, 13, 23] : List Nat).length = 5 := by decide

/-- C9: the prime multiplier starts at 2, each mining round replaces it
by `210·m` or `m + 1` (so it stays at 2 or above along every reachable
search state), and the verifier rejects any multiplier below 2. -/
theorem primeMultiplier_invariant :
    primeMultiplierInit = 2 ∧
    (∀ blockHeaderHash target m,
      minerRound blockHeaderHash target m = BI_BASE_PRIMORIAL * m ∨
        minerRound blockHeaderHash target m = m + 1) ∧
    (∀ blockHeaderHash target m, 2 ≤ m → 2 ≤ minerRound blockHeaderHash target m) ∧
    (∀ blockHeaderHash target k, 2 ≤ minerMultiplierIter blockHeaderHash target k) ∧
    (∀ (blockHeaderHash target chainLength multiplier : Nat) (chainType : String),
      multiplier < 2 →
        hasValidProof blockHeaderHash target chainLength multiplier chainType =
          some false) := by
  refine ⟨rfl, minerRound_cases, minerRound_ge, ?_, ?_⟩
  · intro h t k
    induction k with
    | zero => exact le_rfl
    | succ k ih => exact minerRound_ge h t _ ih
  · intro h t l m ct hm
    unfold hasValidProof
    by_cases hh : h < BLOCK_HEADER_HASH_MIN
    · rw [if_pos hh]
    rw [if_neg hh]
    by_cases hl : l < t
    · rw [if_pos hl]
    rw [if_neg hl]
    rw [if_pos hm]

/-- Witness for `primeMultiplier_invariant`: a concrete round keeps the
multiplier at 2 or above, and a concrete multiplier of 1 is rejected. -/
theorem primeMultiplier_invariant_witness :
    2 ≤ minerRound 0 1 2 ∧
      hasValidProof 3 0 0 1 CUNNINGHAM_CHAIN_1 = some false :=
  ⟨primeMultiplier_invariant.2.2.1 0 1 2 (by decide),
   primeMultiplier_invariant.2.2.2.2 3 0 0 1 CUNNINGHAM_CHAIN_1 (by decide)⟩

/-- C1: verifier soundness — whenever `hasValidProof` accepts, the header
digest is at least `2^255`, the stored chain length meets the target, the
multiplier is at least 2, the chain type is one of the three recognized
tags, and an independent `findCunninghamChain` recomputation from
`origin = digest × multiplier` reaches the target (halved targets summing
to the target for bi-twin); an unrecognized chain type always yields
`false`. -/
theorem hasValidProof_sound :
    (∀ (blockHeaderHash target chainLength multiplier : Nat) (chainType : String),
      hasValidProof blockHeaderHash target chainLength multiplier chainType = some true →
        2 ^ 255 ≤ blockHeaderHash ∧ target ≤ chainLength ∧ 2 ≤ multiplier ∧
        (chainType = CUNNINGHAM_CHAIN_1 ∨ chainType = CUNNINGHAM_CHAIN_2 ∨
          chainType = BITWIN_CHAIN) ∧
        (chainType = CUNNINGHAM_CHAIN_1 →
          ∃ L, findCunninghamChain (blockHeaderHash * multiplier - 1) CUNNINGHAM_CHAIN_1
              target = some L ∧ target ≤ L) ∧
        (chainType = CUNNINGHAM_CHAIN_2 →
          ∃ L, findCunninghamChain (blockHeaderHash * multiplier + 1) CUNNINGHAM_CHAIN_2
              target = some L ∧ target ≤ L) ∧
        (chainType = BITWIN_CHAIN →
          ∃ L1 L2,
            findCunninghamChain (blockHeaderHash * multiplier - 1) CUNNINGHAM_CHAIN_1
                ((target + 1) / 2) = some L1 ∧
            findCunninghamChain (blockHeaderHash * multiplier + 1) CUNNINGHAM_CHAIN_2
                (target / 2) = some L2 ∧
            target ≤ L1 + L2)) ∧
    (∀ (blockHeaderHash target chainLength multiplier : Nat) (chainType : String),
      chainType ≠ CUNNINGHAM_CHAIN_1 → chainType ≠ CUNNINGHAM_CHAIN_2 →
      chainType ≠ BITWIN_CHAIN →
        hasValidProof blockHeaderHash target chainLength multiplier chainType =
          some false) := by
  constructor
  · intro h t l m ct hv
    unfold hasValidProof at hv
    by_cases hh : h < BLOCK_HEADER_HASH_MIN
    · rw [if_pos hh] at hv; simp at hv
    rw [if_neg hh] at hv
    by_cases hl : l < t
    · rw [if_pos hl] at hv; simp at hv
    rw [if_neg hl] at hv
    by_cases hm : m < 2
    · rw [if_pos hm] at hv; simp at hv
    rw [if_neg hm] at hv
    have hmin : 2 ^ 255 ≤ h := le_of_not_lt hh
    have hlt : t ≤ l := le_of_not_lt hl
    have hmul : 2 ≤ m := le_of_not_lt hm
    by_cases hct1 : ct = CUNNINGHAM_CHAIN_1
    · subst hct1
      simp only [beq_self_eq_true, if_true, Option.map_eq_some'] at hv
      obtain ⟨L, hL, hf⟩ := hv
      simp only [Bool.not_eq_true', decide_eq_false_iff_not, not_lt] at hf
      exact ⟨hmin, hlt, hmul, Or.inl rfl, fun _ => ⟨L, hL, hf⟩,
        fun heq => absurd heq (by decide), fun heq => absurd heq (by decide)⟩
    by_cases hct2 : ct = CUNNINGHAM_CHAIN_2
    · subst hct2
      have hne : (CUNNINGHAM_CHAIN_2 == CUNNINGHAM_CHAIN_1) = false := by decide
      simp only [hne, Bool.false_eq_true, if_false, beq_self_eq_true, if_true,
        Option.map_eq_some'] at hv
      obtain ⟨L, hL, hf⟩ := hv
      simp only [Bool.not_eq_true', decide_eq_false_iff_not, not_lt] at hf
      exact ⟨hmin, hlt, hmul, Or.inr (Or.inl rfl),
        fun heq => absurd heq (by decide), fun _ => ⟨L, hL, hf⟩,
        fun heq => absurd heq (by decide)⟩
    by_cases hct3 : ct = BITWIN_CHAIN
    · subst hct3
      have hne1 : (BITWIN_CHAIN == CUNNINGHAM_CHAIN_1) = false := by decide
      have hne2 : (BITWIN_CHAIN == CUNNINGHAM_CHAIN_2) = false := by decide
      simp only [hne1, hne2, Bool.false_eq_true, if_false, beq_self_eq_true, if_true] at hv
      have e1 := findCunninghamChain_eq_spec (h * m - 1) ChainKind.first ((t + 1) / 2)
      have e2 := findCunninghamChain_eq_spec (h * m + 1) ChainKind.second (t / 2)
      simp only [kindTag] at e1 e2
      rw [e1, e2] at hv
      simp only [Option.some.injEq, Bool.not_eq_true', decide_eq_false_iff_not, not_lt] at hv
      exact ⟨hmin, hlt, hmul, Or.inr (Or.inr rfl),
        fun heq => absurd heq (by decide), fun heq => absurd heq (by decide),
        fun _ => ⟨findChainSpec (h * m - 1) ChainKind.first ((t + 1) / 2),
          findChainSpec (h * m + 1) ChainKind.second (t / 2), e1, e2, hv⟩⟩
    · have b1 : (ct == CUNNINGHAM_CHAIN_1) = false := beq_eq_false_iff_ne.mpr hct1
      have b2 : (ct == CUNNINGHAM_CHAIN_2) = false := beq_eq_false_iff_ne.mpr hct2
      have b3 : (ct == BITWIN_CHAIN) = false := beq_eq_false_iff_ne.mpr hct3
      simp only [b1, b2, b3, Bool.false_eq_true, if_false] at hv
      simp at hv
  · intro h t l m ct h1 h2 h3
    unfold hasValidProof
    have b1 : (ct == CUNNINGHAM_CHAIN_1) = false := beq_eq_false_iff_ne.mpr h1
    have b2 : (ct == CUNNINGHAM_CHAIN_2) = false := beq_eq_false_iff_ne.mpr h2
    have b3 : (ct == BITWIN_CHAIN) = false := beq_eq_false_iff_ne.mpr h3
    by_cases hh : h < BLOCK_HEADER_HASH_MIN
    · rw [if_pos hh]
    rw [if_neg hh]
    by_cases hl : l < t
    · rw [if_pos hl]
    rw [if_neg hl]
    by_cases hm : m < 2
    · rw [if_pos hm]
    rw [if_neg hm]
    simp [b1, b2, b3]

set_option maxRecDepth 10000 in
/-- Witness for `hasValidProof_sound`: a concrete accepted block (digest
exactly `2^255`, target 0, multiplier 2, first-kind tag) and a concrete
unrecognized tag that is rejected. -/
theorem hasValidProof_sound_witness :
    (2 ^ 255 ≤ 2 ^ 255 ∧ (0 : Nat) ≤ 0 ∧ 2 ≤ 2 ∧
      (CUNNINGHAM_CHAIN_1 = CUNNINGHAM_CHAIN_1 ∨ CUNNINGHAM_CHAIN_1 = CUNNINGHAM_CHAIN_2 ∨
        CUNNINGHAM_CHAIN_1 = BITWIN_CHAIN) ∧
      (CUNNINGHAM_CHAIN_1 = CUNNINGHAM_CHAIN_1 →
        ∃ L, findCunninghamChain (2 ^ 255 * 2 - 1) CUNNINGHAM_CHAIN_1 0 = some L ∧ 0 ≤ L) ∧
      (CUNNINGHAM_CHAIN_1 = CUNNINGHAM_CHAIN_2 →
        ∃ L, findCunninghamChain (2 ^ 255 * 2 + 1) CUNNINGHAM_CHAIN_2 0 = some L ∧ 0 ≤ L) ∧
      (CUNNINGHAM_CHAIN_1 = BITWIN_CHAIN →
        ∃ L1 L2,
          findCunninghamChain (2 ^ 255 * 2 - 1) CUNNINGHAM_CHAIN_1 ((0 + 1) / 2) = some L1 ∧
          findCunninghamChain (2 ^ 255 * 2 + 1) CUNNINGHAM_CHAIN_2 (0 / 2) = some L2 ∧
          0 ≤ L1 + L2)) ∧
    hasValidProof 0 0 0 0 "SQUARE_CHAIN" = some false :=
  ⟨hasValidProof_sound.1 (2 ^ 255) 0 0 2 CUNNINGHAM_CHAIN_1 (by decide),
   hasValidProof_sound.2 0 0 0 0 "SQUARE_CHAIN" (by decide) (by decide) (by decide)⟩

end SGP
